import Mathlib

/-!
Verification development for the Procedural Remapper core
(`src/components/RemapperNode.tsx`): the geometric layer transform
(`transformLayers`), the AI/feedback override merge, the confirmation
state machine driving `requiresGeneration` / `status`, the two-level
generation gate, and the feedback-driven preview invalidation effect.

Numbers are modelled as rationals (`ℚ`); JavaScript optional values as
`Option`; JS truthiness of strings and of `|| 1.0` defaults is made
explicit in small helper functions.
-/

/-- Rectangle `{x, y, w, h}` used for layer coordinates and container bounds. -/
structure Rect where
  x : ℚ
  y : ℚ
  w : ℚ
  h : ℚ
deriving DecidableEq, Repr

/-- The explicit transform record `{scaleX, scaleY, offsetX, offsetY}`
carried on every output layer. -/
structure Transform where
  scaleX : ℚ
  scaleY : ℚ
  offsetX : ℚ
  offsetY : ℚ
deriving DecidableEq, Repr

/-- A per-layer override as consumed by the geometric transform
(`strategy.overrides` entries): target layer id, offsets relative to the
target container origin, an individual scale multiplier, and
display-only semantic fields. -/
structure LayerOverride where
  layerId : String
  xOffset : ℚ
  yOffset : ℚ
  individualScale : ℚ
  layoutRole : Option String := none
  linkedAnchorId : Option String := none
  citedRule : Option String := none
deriving DecidableEq, Repr

/-- An AI layout strategy (`LayoutStrategy`), treated as untrusted optional
input: suggested uniform scale, override list, generative-replace target,
generative prompt, explicit-intent flag and directive tags. -/
structure LayoutStrategy where
  suggestedScale : Option ℚ := none
  overrides : Option (List LayerOverride) := none
  replaceLayerId : Option String := none
  generativePrompt : Option String := none
  isExplicitIntent : Bool := false
  directives : Option (List String) := none
deriving DecidableEq, Repr

/-- A node of the source layer tree (`SerializableLayer`): id, name, kind,
bounds, and an optional ordered list of children. -/
inductive SLayer : Type where
  | mk (lid lname ltype : String) (lcoords : Rect) (lchildren : Option (List SLayer))

/-- Source layer id. -/
def SLayer.lid : SLayer → String
  | .mk i _ _ _ _ => i

/-- Source layer name. -/
def SLayer.lname : SLayer → String
  | .mk _ n _ _ _ => n

/-- Source layer kind. -/
def SLayer.ltype : SLayer → String
  | .mk _ _ t _ _ => t

/-- Source layer bounds. -/
def SLayer.lcoords : SLayer → Rect
  | .mk _ _ _ c _ => c

/-- Source layer children (`undefined` is `none`). -/
def SLayer.lchildren : SLayer → Option (List SLayer)
  | .mk _ _ _ _ c => c

/-- A node of the transformed output tree (`TransformedLayer`): the input
layer's identity fields, final coordinates, the explicit transform record,
an optional generative prompt, override-derived display metadata, and
optional transformed children. -/
inductive TLayer : Type where
  | mk (tid tname ttype : String) (tcoords : Rect) (ttransform : Transform)
       (tprompt : Option String) (trole tanchor trule : Option String)
       (tchildren : Option (List TLayer))

/-- Output layer id. -/
def TLayer.tid : TLayer → String
  | .mk i _ _ _ _ _ _ _ _ _ => i

/-- Output layer name. -/
def TLayer.tname : TLayer → String
  | .mk _ n _ _ _ _ _ _ _ _ => n

/-- Output layer kind. -/
def TLayer.ttype : TLayer → String
  | .mk _ _ t _ _ _ _ _ _ _ => t

/-- Output layer final coordinates. -/
def TLayer.tcoords : TLayer → Rect
  | .mk _ _ _ c _ _ _ _ _ _ => c

/-- Output layer transform record. -/
def TLayer.ttransform : TLayer → Transform
  | .mk _ _ _ _ t _ _ _ _ _ => t

/-- Output layer generative prompt. -/
def TLayer.tprompt : TLayer → Option String
  | .mk _ _ _ _ _ p _ _ _ _ => p

/-- Output layer layout role (override-derived). -/
def TLayer.trole : TLayer → Option String
  | .mk _ _ _ _ _ _ r _ _ _ => r

/-- Output layer linked anchor id (override-derived). -/
def TLayer.tanchor : TLayer → Option String
  | .mk _ _ _ _ _ _ _ a _ _ => a

/-- Output layer cited rule (override-derived). -/
def TLayer.trule : TLayer → Option String
  | .mk _ _ _ _ _ _ _ _ r _ => r

/-- Output layer children. -/
def TLayer.tchildren : TLayer → Option (List TLayer)
  | .mk _ _ _ _ _ _ _ _ _ c => c

/-- JS `v || 1.0` on an optional number: `1` when the value is absent or
equals `0` (both are falsy in JS). -/
def jsOrOne : Option ℚ → ℚ
  | none => 1
  | some q => if q = 0 then 1 else q

/-- JS truthiness of an optional string: `false` for `undefined` and for
the empty string. -/
def jsTruthyS : Option String → Bool
  | none => false
  | some s => !(s == "")

/-- The inputs of one `transformLayers` invocation: source bounds, target
bounds, the effective strategy (possibly absent), and whether generation
is allowed for this instance. -/
structure RemapCtx where
  sourceRect : Rect
  targetRect : Rect
  strategy : Option LayoutStrategy
  effectiveAllowed : Bool
deriving Repr

/-- `strategy?.suggestedScale || 1.0` — the global uniform scale. -/
def globalScaleOf (cfg : RemapCtx) : ℚ :=
  jsOrOne (cfg.strategy.bind LayoutStrategy.suggestedScale)

/-- `strategy?.overrides?.find(o => o.layerId === id)`. -/
def getOverride (cfg : RemapCtx) (lid : String) : Option LayerOverride :=
  match cfg.strategy with
  | none => none
  | some st =>
    match st.overrides with
    | none => none
    | some os => os.find? (fun o => o.layerId == lid)

/-- `effectiveAllowed && strategy?.replaceLayerId === layer.id` — the
generative-substitution condition. -/
def substCond (cfg : RemapCtx) (lid : String) : Bool :=
  cfg.effectiveAllowed &&
    (match cfg.strategy with
     | some st => st.replaceLayerId == some lid
     | none => false)

/-- `strategy.generativePrompt` as read in the substitution branch. -/
def strategyPromptOf (cfg : RemapCtx) : Option String :=
  match cfg.strategy with
  | some st => st.generativePrompt
  | none => none

/-- The geometric projection of an x coordinate:
`targetRect.x + ((x - sourceRect.x) / sourceRect.w) * targetRect.w`. -/
def geomXOf (cfg : RemapCtx) (lc : Rect) : ℚ :=
  cfg.targetRect.x + (lc.x - cfg.sourceRect.x) / cfg.sourceRect.w * cfg.targetRect.w

/-- The geometric projection of a y coordinate. -/
def geomYOf (cfg : RemapCtx) (lc : Rect) : ℚ :=
  cfg.targetRect.y + (lc.y - cfg.sourceRect.y) / cfg.sourceRect.h * cfg.targetRect.h

/-- The final x of a non-substituted layer: the override branch
(`targetRect.x + override.xOffset`) when an override matches, otherwise
the geometric projection plus the parent delta. -/
def normFinalX (cfg : RemapCtx) (pdx : ℚ) (lc : Rect) (lid : String) : ℚ :=
  match getOverride cfg lid with
  | some ov => cfg.targetRect.x + ov.xOffset
  | none => geomXOf cfg lc + pdx

/-- The final y of a non-substituted layer. -/
def normFinalY (cfg : RemapCtx) (pdy : ℚ) (lc : Rect) (lid : String) : ℚ :=
  match getOverride cfg lid with
  | some ov => cfg.targetRect.y + ov.yOffset
  | none => geomYOf cfg lc + pdy

/-- The per-axis scale of a non-substituted layer: the global scale,
additionally multiplied by `override.individualScale` when an override
matches (the code applies the same value on both axes). -/
def normScale (cfg : RemapCtx) (lid : String) : ℚ :=
  match getOverride cfg lid with
  | some ov => globalScaleOf cfg * ov.individualScale
  | none => globalScaleOf cfg

mutual

/-- The body of `transformLayers`'s `layers.map` callback for one layer:
the generative-substitution branch, else the projection/override branch
with recursion into children (same parent deltas, depth + 1). -/
def transformOne (cfg : RemapCtx) (depth : Nat) (pdx pdy : ℚ) : SLayer → TLayer
  | .mk lid lname ltype lcoords lchildren =>
    if substCond cfg lid then
      TLayer.mk lid lname "generative"
        ⟨cfg.targetRect.x, cfg.targetRect.y, cfg.targetRect.w, cfg.targetRect.h⟩
        ⟨1, 1, cfg.targetRect.x, cfg.targetRect.y⟩
        (strategyPromptOf cfg) none none none none
    else
      TLayer.mk lid lname ltype
        ⟨normFinalX cfg pdx lcoords lid, normFinalY cfg pdy lcoords lid,
         lcoords.w * normScale cfg lid, lcoords.h * normScale cfg lid⟩
        ⟨normScale cfg lid, normScale cfg lid,
         normFinalX cfg pdx lcoords lid, normFinalY cfg pdy lcoords lid⟩
        none
        ((getOverride cfg lid).bind LayerOverride.layoutRole)
        ((getOverride cfg lid).bind LayerOverride.linkedAnchorId)
        ((getOverride cfg lid).bind LayerOverride.citedRule)
        (match lchildren with
         | some cs => some (transformLayers cfg (depth + 1) pdx pdy cs)
         | none => none)

/-- `transformLayers(layers, depth, parentDeltaX, parentDeltaY)`: maps
`transformOne` over the list. -/
def transformLayers (cfg : RemapCtx) (depth : Nat) (pdx pdy : ℚ) : List SLayer → List TLayer
  | [] => []
  | l :: rest => transformOne cfg depth pdx pdy l :: transformLayers cfg depth pdx pdy rest

end

/-- The root call `transformLayers(sourceData.layers)`: depth 0 and both
parent deltas 0. -/
def remapRoot (cfg : RemapCtx) (layers : List SLayer) : List TLayer :=
  transformLayers cfg 0 0 0 layers

/-- An override entry as handled by the AI/feedback override merge in
`RemapperNode` (feedback entries may omit `individualScale`, which the
merge backfills with the AI value). -/
structure MOverride where
  layerId : String
  xOffset : ℚ
  yOffset : ℚ
  individualScale : Option ℚ := none
  layoutRole : Option String := none
  linkedAnchorId : Option String := none
  citedRule : Option String := none
deriving DecidableEq, Repr

/-- Lookup in `new Map(feedback.overrides.map(o => [o.layerId, o]))`:
the last entry with a given layer id wins. -/
def mapGet (fb : List MOverride) (lid : String) : Option MOverride :=
  fb.foldl (fun acc o => if o.layerId == lid then some o else acc) none

/-- The `originalOverrides.map` callback of the merge: when a feedback
entry with the same layer id exists, replace the offsets and (when the
feedback entry carries one) the individual scale; all other fields of
the AI override are kept. -/
def mergeEntry (fb : List MOverride) (original : MOverride) : MOverride :=
  match mapGet fb original.layerId with
  | some manual =>
    { original with
      xOffset := manual.xOffset
      yOffset := manual.yOffset
      individualScale :=
        match manual.individualScale with
        | some s => some s
        | none => original.individualScale }
  | none => original

/-- The `feedback.overrides.forEach` loop of the merge: append each
feedback entry whose layer id is not yet present in the accumulated
result. -/
def appendLoop (acc : List MOverride) (fb : List MOverride) : List MOverride :=
  fb.foldl
    (fun acc manual =>
      match acc.find? (fun m => m.layerId == manual.layerId) with
      | some _ => acc
      | none => acc ++ [manual])
    acc

/-- The override merge of `RemapperNode`: map the AI overrides through
`mergeEntry`, then run the append loop over the feedback entries. -/
def mergeOverrides (ai fb : List MOverride) : List MOverride :=
  appendLoop (ai.map (mergeEntry fb)) fb

/-- The layer ids of an override list. -/
def idsOf (l : List MOverride) : List String :=
  l.map MOverride.layerId

/-- Written from the spec's words for claim C4 (refinement comparison):
"each AI override in its original position with xOffset and yOffset
replaced by the same-id feedback entry's values and individualScale
replaced by the feedback value or, when the feedback entry omits it,
kept at the AI value". -/
def specMergeAI (fb : List MOverride) (o : MOverride) : MOverride :=
  match fb.find? (fun m => m.layerId == o.layerId) with
  | some manual =>
    { o with
      xOffset := manual.xOffset
      yOffset := manual.yOffset
      individualScale :=
        match manual.individualScale with
        | some s => some s
        | none => o.individualScale }
  | none => o

/-- Written from the spec's words for claim C4 (refinement comparison):
merged AI overrides first, then "every feedback entry whose layer id
matches no AI override appended after them in its original order". -/
def specMergedC4 (ai fb : List MOverride) : List MOverride :=
  ai.map (specMergeAI fb) ++
    fb.filter (fun m => !(ai.any (fun a => a.layerId == m.layerId)))

/-- Payload status: `success` or `awaiting_confirmation`. -/
inductive PStatus : Type where
  | success
  | awaiting
deriving DecidableEq, Repr

/-- The inputs of the per-instance flag computation in `RemapperNode`:
the effective strategy, the two generation gates (global switch and the
per-instance setting, absent meaning allowed), and the recorded
confirmation `confirmations[i]`. -/
structure FlagsIn where
  strategy : Option LayoutStrategy
  globalAllowed : Bool
  instanceSetting : Option Bool
  confirmedPrompt : Option String
deriving Repr

/-- `globalGenerationAllowed && (instanceSettings[i]?.generationAllowed ?? true)`. -/
def effAllowedOf (f : FlagsIn) : Bool :=
  f.globalAllowed && f.instanceSetting.getD true

/-- `strategy?.generativePrompt`. -/
def currentPromptOf (f : FlagsIn) : Option String :=
  match f.strategy with
  | some st => st.generativePrompt
  | none => none

/-- `strategy?.isExplicitIntent`. -/
def explicitIntentOf (f : FlagsIn) : Bool :=
  match f.strategy with
  | some st => st.isExplicitIntent
  | none => false

/-- `strategy?.isExplicitIntent || strategy?.directives?.includes('MANDATORY_GEN_FILL')`. -/
def isMandatoryOf (f : FlagsIn) : Bool :=
  explicitIntentOf f ||
    (match f.strategy with
     | some st =>
       match st.directives with
       | some ds => ds.contains "MANDATORY_GEN_FILL"
       | none => false
     | none => false)

/-- `isMandatory || (!!currentPrompt && currentPrompt === confirmedPrompt)`. -/
def isConfirmedOf (f : FlagsIn) : Bool :=
  isMandatoryOf f ||
    (jsTruthyS (currentPromptOf f) && currentPromptOf f == f.confirmedPrompt)

/-- `strategy?.suggestedScale || 1.0` in the flag computation. -/
def scaleOfF (f : FlagsIn) : ℚ :=
  jsOrOne (f.strategy.bind LayoutStrategy.suggestedScale)

/-- The `requiresGeneration` / `status` computation of `RemapperNode`:
starting from `(false, success)`, when a truthy prompt exists and
generation is allowed, a confirmed instance gets
`(requiresGeneration := true, success)`, and an unconfirmed one gets
`awaiting_confirmation` when the strategy is explicit-intent or the
global scale exceeds 2. -/
def computeFlags (f : FlagsIn) : Bool × PStatus :=
  if jsTruthyS (currentPromptOf f) && effAllowedOf f then
    if isConfirmedOf f then (true, PStatus.success)
    else if explicitIntentOf f || decide (2 < scaleOfF f) then (false, PStatus.awaiting)
    else (false, PStatus.success)
  else (false, PStatus.success)

/-- The persisted `data` of a remapper node: the master gate
(`remapperConfig.generationAllowed`, absent meaning allowed), per-instance
gates (`instanceSettings[i].generationAllowed`), and the instance count. -/
structure NodeData where
  remapperConfig : Option Bool
  instanceSettings : Nat → Option Bool
  instanceCount : Nat

/-- The per-node state relevant to the generation gates: node data plus
the component state cleared by the master-gate effect. -/
structure RemapperState where
  dataN : NodeData
  confirmations : Nat → Option String
  displayPreviews : Nat → Option String
  isGeneratingPreview : Nat → Bool

/-- `data.instanceCount || 1`. -/
def jsCountOrOne (n : Nat) : Nat :=
  if n = 0 then 1 else n

/-- `(data.remapperConfig?.generationAllowed ?? true)` — the master gate. -/
def globalAllowedOf (s : RemapperState) : Bool :=
  s.dataN.remapperConfig.getD true

/-- The effective gate of instance `i`: master gate AND per-instance gate. -/
def effectiveAllowedAt (s : RemapperState) (i : Nat) : Bool :=
  globalAllowedOf s && (s.dataN.instanceSettings i).getD true

/-- `toggleMasterGeneration`'s node-data update: flip the master gate and
write the new value into every instance's setting. -/
def toggleMasterData (nd : NodeData) : NodeData :=
  let newGlobal := !(nd.remapperConfig.getD true)
  { nd with
    remapperConfig := some newGlobal
    instanceSettings := fun i =>
      if i < jsCountOrOne nd.instanceCount then some newGlobal else nd.instanceSettings i }

/-- The effect `if (!globalGenerationAllowed) { setConfirmations({});
setDisplayPreviews({}); setIsGeneratingPreview({}); }` that runs when the
master gate changes. -/
def applyGlobalEffect (s : RemapperState) : RemapperState :=
  if globalAllowedOf s then s
  else
    { s with
      confirmations := fun _ => none
      displayPreviews := fun _ => none
      isGeneratingPreview := fun _ => false }

/-- One master-gate toggle: the node-data update followed by the effect
(the gate value always changes, so the effect fires). -/
def toggleMasterStep (s : RemapperState) : RemapperState :=
  applyGlobalEffect { s with dataN := toggleMasterData s.dataN }

/-- `toggleInstanceGeneration(index)`: flip only that instance's setting;
the master gate is unchanged, so the master-gate effect does not fire. -/
def toggleInstanceStep (i : Nat) (s : RemapperState) : RemapperState :=
  { s with
    dataN :=
      { s.dataN with
        instanceSettings := fun j =>
          if j = i then some (!((s.dataN.instanceSettings i).getD true))
          else s.dataN.instanceSettings j } }

/-- The payload fields touched by the feedback-invalidation effect. -/
structure StoredPayload where
  previewUrl : Option String
  isConfirmed : Bool
  isTransient : Bool
  sourceReference : Option String := none
  generationId : Option Nat := none
deriving DecidableEq, Repr

/-- The feedback-invalidation effect of `RemapperNode`: for each instance
`i < count`, when the feedback overrides differ from the previously
observed ones and the stored payload carries a truthy preview URL, the
stored payload is patched with `previewUrl := undefined`,
`isConfirmed := false`, `isTransient := false`.
Modelled from the spec: the store's `updatePayload` (not part of the
sources) merges the given fields into the payload stored for the handle,
leaving all other fields unchanged. -/
def invalidateStalePreviews (count : Nat)
    (newFb oldFb : Nat → Option (List MOverride))
    (payloads : Nat → Option StoredPayload) : Nat → Option StoredPayload :=
  fun i =>
    if i < count then
      if newFb i ≠ oldFb i then
        match payloads i with
        | some p =>
          if jsTruthyS p.previewUrl then
            some { p with previewUrl := none, isConfirmed := false, isTransient := false }
          else some p
        | none => none
      else payloads i
    else payloads i

/-- Membership of a pair (input layer, output layer) at matching positions
of an input tree and an output tree: either at the same index of the two
lists, or recursively inside the children of the nodes at some common
index. -/
inductive Corr : SLayer → TLayer → List SLayer → List TLayer → Prop where
  | here (i : Nat) (s : SLayer) (t : TLayer) (ss : List SLayer) (ts : List TLayer) :
      ss[i]? = some s → ts[i]? = some t → Corr s t ss ts
  | deeper (i : Nat) (sp : SLayer) (tp : TLayer) (cs : List SLayer) (cts : List TLayer)
      (s : SLayer) (t : TLayer) (ss : List SLayer) (ts : List TLayer) :
      ss[i]? = some sp → ts[i]? = some tp →
      sp.lchildren = some cs → tp.tchildren = some cts →
      Corr s t cs cts → Corr s t ss ts

/-- Written from the spec's words for claim C1 (refinement comparison):
"the strategy's suggested scale (1.0 when the strategy is null or omits
it)". -/
def specSuggestedScale (st : Option LayoutStrategy) : ℚ :=
  match st with
  | none => 1
  | some s =>
    match s.suggestedScale with
    | none => 1
    | some q => q

/-- `stripReplace cfg` is `cfg` with the strategy's generative-replace
target removed; used to state that with generation disallowed the
transform behaves as if no replace target existed. -/
def stripReplace (cfg : RemapCtx) : RemapCtx :=
  { cfg with
    strategy := cfg.strategy.map (fun st => { st with replaceLayerId := none }) }

/-- A strategy suggesting scale 0 (C1 sample): falsy in JS, so the code
uses 1.0 instead. -/
def stratScaleZero : LayoutStrategy :=
  { suggestedScale := some 0 }

/-- Remap context with the scale-0 strategy (C1 sample). -/
def cfgScaleZero : RemapCtx :=
  { sourceRect := ⟨0, 0, 100, 100⟩, targetRect := ⟨0, 0, 200, 50⟩,
    strategy := some stratScaleZero, effectiveAllowed := true }

/-- A dead-center 10x10 layer in a 100x100 source (shared sample layer). -/
def layerCenter : SLayer :=
  .mk "a" "hero" "pixel" ⟨50, 50, 10, 10⟩ none

/-- The spec's example override: `{xOffset:-50, yOffset:0, individualScale:2}`
on layer `a` (C1 witness sample). -/
def ovSample : LayerOverride :=
  { layerId := "a", xOffset := -50, yOffset := 0, individualScale := 2 }

/-- Strategy carrying only the sample override (C1 witness sample). -/
def stratOvSample : LayoutStrategy :=
  { overrides := some [ovSample] }

/-- Remap context for the C1 witness. -/
def cfgOvSample : RemapCtx :=
  { sourceRect := ⟨0, 0, 100, 100⟩, targetRect := ⟨0, 0, 200, 50⟩,
    strategy := some stratOvSample, effectiveAllowed := true }

/-- The transformed sample layer under `cfgOvSample` (C1 witness sample). -/
def tOvSample : TLayer :=
  transformOne cfgOvSample 0 0 0 layerCenter

/-- Remap context with a zero-width source (C2 failing input). -/
def cfgZeroW : RemapCtx :=
  { sourceRect := ⟨0, 0, 0, 100⟩, targetRect := ⟨0, 0, 200, 50⟩,
    strategy := none, effectiveAllowed := true }

/-- Strategy with a generative replace target (C3/C9 sample). -/
def stratReplace : LayoutStrategy :=
  { suggestedScale := some 3, replaceLayerId := some "g",
    generativePrompt := some "sky" }

/-- Remap context with the replace strategy, generation allowed (C3/C9). -/
def cfgReplace : RemapCtx :=
  { sourceRect := ⟨0, 0, 100, 100⟩, targetRect := ⟨0, 0, 200, 50⟩,
    strategy := some stratReplace, effectiveAllowed := true }

/-- A group layer with id `g` and one child (C3/C9 sample). -/
def layerG : SLayer :=
  .mk "g" "bg" "group" ⟨10, 10, 10, 10⟩ (some [.mk "c" "x" "pixel" ⟨12, 12, 5, 5⟩ none])

/-- The transformed `layerG` under `cfgReplace` (generative substitution). -/
def tLayerG : TLayer :=
  transformOne cfgReplace 0 0 0 layerG

/-- The spec's example AI override list (C4/C8 sample). -/
def aiSample : List MOverride :=
  [{ layerId := "a", xOffset := 10, yOffset := 5, individualScale := some 1,
     citedRule := some "rule", linkedAnchorId := some "anchor0" }]

/-- The spec's example feedback list plus a feedback-only entry (C4/C8). -/
def fbSample : List MOverride :=
  [{ layerId := "a", xOffset := 20, yOffset := 5, individualScale := some (6/5) },
   { layerId := "b", xOffset := 1, yOffset := 2 }]

/-- First of two feedback entries sharing a layer id (C8 counterexample). -/
def fbDupFirst : MOverride :=
  { layerId := "dup", xOffset := 0, yOffset := 0 }

/-- Second of two feedback entries sharing a layer id (C8 counterexample). -/
def fbDupSecond : MOverride :=
  { layerId := "dup", xOffset := 1, yOffset := 1 }

/-- Flag inputs with an explicit-intent prompt, generation allowed and no
recorded confirmation (C6 counterexample). -/
def flagsExplicit : FlagsIn :=
  { strategy := some { generativePrompt := some "fill sky", isExplicitIntent := true },
    globalAllowed := true, instanceSetting := none, confirmedPrompt := none }

/-- A node state with the master gate on, one instance muted, and one
confirmation recorded (C7 witness sample). -/
def stateSample : RemapperState :=
  { dataN :=
      { remapperConfig := some true,
        instanceSettings := fun i => if i = 1 then some false else none,
        instanceCount := 3 },
    confirmations := fun i => if i = 0 then some "p" else none,
    displayPreviews := fun _ => none,
    isGeneratingPreview := fun _ => false }

/-- A stored payload carrying a preview URL (C10 witness sample). -/
def payloadSample : StoredPayload :=
  { previewUrl := some "blob:x", isConfirmed := true, isTransient := false }

/-- New feedback registry contents for instance 0 (C10 witness sample). -/
def newFbSample : Nat → Option (List MOverride) :=
  fun i => if i = 0 then some [fbDupFirst] else none

/-- Previously observed feedback registry contents (C10 witness sample). -/
def oldFbSample : Nat → Option (List MOverride) :=
  fun _ => none

/-- Stored payloads per instance (C10 witness sample). -/
def payloadsSample : Nat → Option StoredPayload :=
  fun i => if i = 0 then some payloadSample else none

theorem transformLayers_eq_map (cfg : RemapCtx) (d : Nat) (px py : ℚ) (ls : List SLayer) :
    transformLayers cfg d px py ls = ls.map (transformOne cfg d px py) := by
  induction ls with
  | nil => simp [transformLayers]
  | cons l rest ih => simp [transformLayers, ih]

theorem transformOne_children (cfg : RemapCtx) (d : Nat) (px py : ℚ) (s : SLayer) :
    (transformOne cfg d px py s).tchildren =
      if substCond cfg s.lid then none
      else s.lchildren.map (transformLayers cfg (d + 1) px py) := by
  rw [transformOne.eq_def]
  cases s with
  | mk lid lname lt lc ch =>
    simp only [SLayer.lid, SLayer.lchildren]
    split
    · simp [TLayer.tchildren]
    · cases ch <;> simp [TLayer.tchildren, Option.map]

theorem corr_transform_exists (cfg : RemapCtx) (s : SLayer) (t : TLayer)
    (ss : List SLayer) (ts : List TLayer) (h : Corr s t ss ts) :
    ∀ d : Nat, ts = transformLayers cfg d 0 0 ss →
      ∃ d2 : Nat, t = transformOne cfg d2 0 0 s := by
  induction h with
  | here i s t ss ts hs ht =>
    intro d hEq
    subst hEq
    rw [transformLayers_eq_map, List.getElem?_map, hs] at ht
    exact ⟨d, by simpa using ht.symm⟩
  | deeper i sp tp cs cts s t ss ts hs ht hcs hct hcorr ih =>
    intro d hEq
    subst hEq
    rw [transformLayers_eq_map, List.getElem?_map, hs] at ht
    have htp : tp = transformOne cfg d 0 0 sp := by simpa using ht.symm
    have hch := transformOne_children cfg d 0 0 sp
    rw [← htp, hct] at hch
    by_cases hsub : substCond cfg sp.lid = true
    · simp [hsub] at hch
    · simp only [hsub, if_false, Bool.not_eq_true] at hch
      rw [hcs] at hch
      simp only [Option.map_some'] at hch
      exact ih (d + 1) (Option.some.inj hch)

theorem transformOne_subst_eq (cfg : RemapCtx) (d : Nat) (px py : ℚ) (s : SLayer)
    (h : substCond cfg s.lid = true) :
    transformOne cfg d px py s =
      TLayer.mk s.lid s.lname "generative"
        ⟨cfg.targetRect.x, cfg.targetRect.y, cfg.targetRect.w, cfg.targetRect.h⟩
        ⟨1, 1, cfg.targetRect.x, cfg.targetRect.y⟩
        (strategyPromptOf cfg) none none none none := by
  rw [transformOne.eq_def]
  cases s with
  | mk lid lname lt lc ch =>
    simp only [SLayer.lid, SLayer.lname] at h ⊢
    rw [if_pos h]

theorem transformOne_normal_eq (cfg : RemapCtx) (d : Nat) (px py : ℚ) (s : SLayer)
    (h : substCond cfg s.lid = false) :
    transformOne cfg d px py s =
      TLayer.mk s.lid s.lname s.ltype
        ⟨normFinalX cfg px s.lcoords s.lid, normFinalY cfg py s.lcoords s.lid,
         s.lcoords.w * normScale cfg s.lid, s.lcoords.h * normScale cfg s.lid⟩
        ⟨normScale cfg s.lid, normScale cfg s.lid,
         normFinalX cfg px s.lcoords s.lid, normFinalY cfg py s.lcoords s.lid⟩
        none ((getOverride cfg s.lid).bind LayerOverride.layoutRole)
        ((getOverride cfg s.lid).bind LayerOverride.linkedAnchorId)
        ((getOverride cfg s.lid).bind LayerOverride.citedRule)
        (s.lchildren.map (transformLayers cfg (d + 1) px py)) := by
  rw [transformOne.eq_def]
  cases s with
  | mk lid lname lt lc ch =>
    simp only [SLayer.lid, SLayer.lname, SLayer.ltype, SLayer.lcoords, SLayer.lchildren] at h ⊢
    rw [if_neg (by simp [h])]
    cases ch <;> simp [Option.map]

/-- C9 (amended): for every (input layer, output layer) pair of a remap
call, the carried coordinates agree with the transform record's offsets;
for every layer that is not the generative replace-target the output
width and height are the input width and height times the recorded
per-axis scales; a generative-substituted layer instead records scales of
1 with its coordinates forced to the target bounds. -/
theorem c9_transform_record_consistency (cfg : RemapCtx) (ss : List SLayer)
    (s : SLayer) (t : TLayer) (hc : Corr s t ss (remapRoot cfg ss)) :
    t.tcoords.x = t.ttransform.offsetX ∧ t.tcoords.y = t.ttransform.offsetY ∧
    (substCond cfg s.lid = false →
      t.tcoords.w = s.lcoords.w * t.ttransform.scaleX ∧
      t.tcoords.h = s.lcoords.h * t.ttransform.scaleY) ∧
    (substCond cfg s.lid = true →
      t.ttransform.scaleX = 1 ∧ t.ttransform.scaleY = 1 ∧ t.tcoords = cfg.targetRect) := by
  obtain ⟨d2, rfl⟩ := corr_transform_exists cfg s t ss _ hc 0 rfl
  by_cases h : substCond cfg s.lid = true
  · rw [transformOne_subst_eq cfg d2 0 0 s h]
    refine ⟨rfl, rfl, ?_, ?_⟩
    · intro hf
      rw [h] at hf
      exact Bool.noConfusion hf
    · intro _
      exact ⟨rfl, rfl, rfl⟩
  · rw [transformOne_normal_eq cfg d2 0 0 s (by simpa using h)]
    refine ⟨rfl, rfl, ?_, ?_⟩
    · intro _
      exact ⟨rfl, rfl⟩
    · intro ht
      exact absurd ht h

/-- C9 counterexample: a generative-substituted layer of the output tree
carries `scaleX = 1` but width forced to the target bounds, so its width
is not the input width times the recorded scale, contradicting the claim
for substituted layers. -/
theorem c9_counterexample :
    Corr layerG tLayerG [layerG] (remapRoot cfgReplace [layerG]) ∧
    tLayerG.ttype = "generative" ∧
    tLayerG.tcoords.w ≠ layerG.lcoords.w * tLayerG.ttransform.scaleX := by
  have hsub : substCond cfgReplace layerG.lid = true := by
    simp [substCond, cfgReplace, stratReplace, layerG, SLayer.lid]
  refine ⟨Corr.here 0 _ _ _ _ rfl (by simp [remapRoot, transformLayers, tLayerG]), ?_, ?_⟩
  · rw [tLayerG, transformOne_subst_eq cfgReplace 0 0 0 layerG hsub]
    rfl
  · rw [tLayerG, transformOne_subst_eq cfgReplace 0 0 0 layerG hsub]
    simp [TLayer.tcoords, TLayer.ttransform, SLayer.lcoords, cfgReplace, layerG]

/-- C9 witness: the amended consistency theorem applied to a concrete
remap output pair (the substituted layer of the sample tree). -/
theorem c9_witness :
    tLayerG.tcoords.x = tLayerG.ttransform.offsetX ∧
    tLayerG.tcoords.y = tLayerG.ttransform.offsetY ∧
    (substCond cfgReplace layerG.lid = false →
      tLayerG.tcoords.w = layerG.lcoords.w * tLayerG.ttransform.scaleX ∧
      tLayerG.tcoords.h = layerG.lcoords.h * tLayerG.ttransform.scaleY) ∧
    (substCond cfgReplace layerG.lid = true →
      tLayerG.ttransform.scaleX = 1 ∧ tLayerG.ttransform.scaleY = 1 ∧
      tLayerG.tcoords = cfgReplace.targetRect) :=
  c9_transform_record_consistency cfgReplace [layerG] layerG tLayerG
    (Corr.here 0 _ _ _ _ rfl (by simp [remapRoot, transformLayers, tLayerG]))

/-- C1 (amended): for every layer of a remap call (nonzero source bounds,
not the generative replace-target): with no matching override the layer
lands at the geometric projection with both axis scales equal to the
code's effective global scale (the strategy's suggested scale, with 1.0
used when the strategy is null, omits the scale, or suggests 0); with a
matching override the position is target origin plus the override
offsets and both axis scales are additionally multiplied by
`individualScale`; output width/height are input width/height times the
final per-axis scale. -/
theorem c1_projection_and_override_placement (cfg : RemapCtx) (ss : List SLayer)
    (s : SLayer) (t : TLayer)
    (hw : cfg.sourceRect.w ≠ 0) (hh : cfg.sourceRect.h ≠ 0)
    (hc : Corr s t ss (remapRoot cfg ss))
    (hns : substCond cfg s.lid = false) :
    (getOverride cfg s.lid = none →
      t.tcoords.x =
        cfg.targetRect.x + (s.lcoords.x - cfg.sourceRect.x) / cfg.sourceRect.w * cfg.targetRect.w ∧
      t.tcoords.y =
        cfg.targetRect.y + (s.lcoords.y - cfg.sourceRect.y) / cfg.sourceRect.h * cfg.targetRect.h ∧
      t.ttransform.scaleX = globalScaleOf cfg ∧
      t.ttransform.scaleY = globalScaleOf cfg ∧
      t.tcoords.w = s.lcoords.w * globalScaleOf cfg ∧
      t.tcoords.h = s.lcoords.h * globalScaleOf cfg) ∧
    (∀ ov : LayerOverride, getOverride cfg s.lid = some ov →
      t.tcoords.x = cfg.targetRect.x + ov.xOffset ∧
      t.tcoords.y = cfg.targetRect.y + ov.yOffset ∧
      t.ttransform.scaleX = globalScaleOf cfg * ov.individualScale ∧
      t.ttransform.scaleY = globalScaleOf cfg * ov.individualScale ∧
      t.tcoords.w = s.lcoords.w * (globalScaleOf cfg * ov.individualScale) ∧
      t.tcoords.h = s.lcoords.h * (globalScaleOf cfg * ov.individualScale)) := by
  obtain ⟨d2, rfl⟩ := corr_transform_exists cfg s t ss _ hc 0 rfl
  rw [transformOne_normal_eq cfg d2 0 0 s hns]
  constructor
  · intro hov
    simp [TLayer.tcoords, TLayer.ttransform, normFinalX, normFinalY, normScale,
          geomXOf, geomYOf, hov]
  · intro ov hov
    simp [TLayer.tcoords, TLayer.ttransform, normFinalX, normFinalY, normScale, hov]

/-- C1 counterexample: with a strategy whose suggested scale is 0 (falsy
in JS) and a layer with no override, the code scales by 1.0, not by the
strategy's suggested scale as the claim (which defaults only for a null
or absent strategy scale) predicts. -/
theorem c1_counterexample :
    substCond cfgScaleZero layerCenter.lid = false ∧
    getOverride cfgScaleZero layerCenter.lid = none ∧
    specSuggestedScale cfgScaleZero.strategy = 0 ∧
    (transformOne cfgScaleZero 0 0 0 layerCenter).ttransform.scaleX = 1 ∧
    (transformOne cfgScaleZero 0 0 0 layerCenter).ttransform.scaleX ≠
      specSuggestedScale cfgScaleZero.strategy := by
  have hns : substCond cfgScaleZero layerCenter.lid = false := by
    simp [substCond, cfgScaleZero, stratScaleZero, layerCenter, SLayer.lid]
  have hsc : (transformOne cfgScaleZero 0 0 0 layerCenter).ttransform.scaleX = 1 := by
    rw [transformOne_normal_eq cfgScaleZero 0 0 0 layerCenter hns]
    simp [TLayer.ttransform, normScale, getOverride, cfgScaleZero, stratScaleZero,
          layerCenter, SLayer.lid, globalScaleOf, jsOrOne]
  have hs0 : specSuggestedScale cfgScaleZero.strategy = 0 := by
    simp [specSuggestedScale, cfgScaleZero, stratScaleZero]
  refine ⟨hns, ?_, hs0, hsc, ?_⟩
  · simp [getOverride, cfgScaleZero, stratScaleZero, layerCenter, SLayer.lid]
  · rw [hsc, hs0]
    norm_num

/-- C1 witness: the amended theorem applied to the spec's own example —
source 100x100, target 200x50, dead-center 10x10 layer with override
`{xOffset := -50, yOffset := 0, individualScale := 2}`. -/
theorem c1_witness :
    cfgOvSample.sourceRect.w ≠ 0 ∧ cfgOvSample.sourceRect.h ≠ 0 ∧
    substCond cfgOvSample layerCenter.lid = false ∧
    getOverride cfgOvSample layerCenter.lid = some ovSample ∧
    (tOvSample.tcoords.x = cfgOvSample.targetRect.x + ovSample.xOffset ∧
     tOvSample.tcoords.y = cfgOvSample.targetRect.y + ovSample.yOffset ∧
     tOvSample.ttransform.scaleX = globalScaleOf cfgOvSample * ovSample.individualScale ∧
     tOvSample.ttransform.scaleY = globalScaleOf cfgOvSample * ovSample.individualScale ∧
     tOvSample.tcoords.w = layerCenter.lcoords.w * (globalScaleOf cfgOvSample * ovSample.individualScale) ∧
     tOvSample.tcoords.h = layerCenter.lcoords.h * (globalScaleOf cfgOvSample * ovSample.individualScale)) := by
  have hw : cfgOvSample.sourceRect.w ≠ 0 := by norm_num [cfgOvSample]
  have hh : cfgOvSample.sourceRect.h ≠ 0 := by norm_num [cfgOvSample]
  have hns : substCond cfgOvSample layerCenter.lid = false := by
    simp [substCond, cfgOvSample, stratOvSample, layerCenter, SLayer.lid]
  have hov : getOverride cfgOvSample layerCenter.lid = some ovSample := by
    simp [getOverride, cfgOvSample, stratOvSample, layerCenter, SLayer.lid, ovSample, List.find?]
  have hc : Corr layerCenter tOvSample [layerCenter] (remapRoot cfgOvSample [layerCenter]) :=
    Corr.here 0 _ _ _ _ rfl (by simp [remapRoot, transformLayers, tOvSample])
  exact ⟨hw, hh, hns, hov,
    (c1_projection_and_override_placement cfgOvSample [layerCenter] layerCenter tOvSample
      hw hh hc hns).2 ovSample hov⟩

/-- C2: with a zero-width source rectangle the remap is not rejected —
`transformLayers` still runs the projection math and returns a full
output layer (in JS the division by zero yields Infinity/NaN; in this
rational model it yields 0), instead of failing before the projection. -/
theorem c2_zero_width_not_rejected :
    remapRoot cfgZeroW [layerCenter] =
      [TLayer.mk "a" "hero" "pixel" ⟨0, 25, 10, 10⟩ ⟨1, 1, 0, 25⟩ none none none none none] := by
  rw [remapRoot, transformLayers_eq_map]
  simp only [List.map_cons, List.map_nil]
  rw [transformOne_normal_eq cfgZeroW 0 0 0 layerCenter (by simp [substCond, cfgZeroW])]
  simp [TLayer.tcoords, layerCenter, cfgZeroW, SLayer.lid, SLayer.lname, SLayer.ltype,
        SLayer.lcoords, SLayer.lchildren, normFinalX, normFinalY, normScale, geomXOf,
        geomYOf, getOverride, globalScaleOf, jsOrOne]
  norm_num

theorem getOverride_strip (cfg : RemapCtx) (lid : String) :
    getOverride (stripReplace cfg) lid = getOverride cfg lid := by
  cases h : cfg.strategy <;> simp [getOverride, stripReplace, h]

theorem globalScaleOf_strip (cfg : RemapCtx) :
    globalScaleOf (stripReplace cfg) = globalScaleOf cfg := by
  cases h : cfg.strategy <;> simp [globalScaleOf, stripReplace, h]

theorem normFinalX_strip (cfg : RemapCtx) (px : ℚ) (lc : Rect) (lid : String) :
    normFinalX (stripReplace cfg) px lc lid = normFinalX cfg px lc lid := by
  unfold normFinalX
  rw [getOverride_strip]
  simp [stripReplace, geomXOf]

theorem normFinalY_strip (cfg : RemapCtx) (py : ℚ) (lc : Rect) (lid : String) :
    normFinalY (stripReplace cfg) py lc lid = normFinalY cfg py lc lid := by
  unfold normFinalY
  rw [getOverride_strip]
  simp [stripReplace, geomYOf]

theorem normScale_strip (cfg : RemapCtx) (lid : String) :
    normScale (stripReplace cfg) lid = normScale cfg lid := by
  unfold normScale
  rw [getOverride_strip, globalScaleOf_strip]

theorem transformLayers_strip (cfg : RemapCtx) (hna : cfg.effectiveAllowed = false) :
    ∀ (n : Nat) (ls : List SLayer), sizeOf ls ≤ n → ∀ (d : Nat) (px py : ℚ),
      transformLayers cfg d px py ls = transformLayers (stripReplace cfg) d px py ls := by
  intro n
  induction n with
  | zero =>
    intro ls hls d px py
    cases ls with
    | nil => simp [transformLayers]
    | cons l rest => simp at hls
  | succ n ih =>
    intro ls hls d px py
    cases ls with
    | nil => simp [transformLayers]
    | cons l rest =>
      rw [transformLayers]
      congr 1
      · cases l with
        | mk lid lname lt lc ch =>
          have hs1 : substCond cfg lid = false := by simp [substCond, hna]
          have hs2 : substCond (stripReplace cfg) lid = false := by
            simp [substCond, stripReplace, hna]
          rw [transformOne.eq_def]
          rw [transformOne.eq_def]
          simp only [hs1, hs2, if_false, Bool.false_eq_true]
          rw [normFinalX_strip, normFinalY_strip, normScale_strip, getOverride_strip]
          cases ch with
          | none => rfl
          | some cs =>
            have hcs : sizeOf cs ≤ n := by
              simp at hls
              omega
            simp only [ih cs hcs (d + 1) px py]
      · apply ih rest ?_ d px py
        simp at hls
        omega

/-- C3: a layer whose id equals the effective strategy's replace target
is, when generation is allowed for the instance, emitted as a
`generative` layer carrying the strategy's prompt, with bounds exactly
the target bounds and no children (even if the input layer had
children); when generation is not allowed, the substitution does not
occur — the transform behaves exactly as with no replace target. -/
theorem c3_generative_substitution (cfg : RemapCtx) (d : Nat) (px py : ℚ) (s : SLayer) :
    (substCond cfg s.lid = true →
      (transformOne cfg d px py s).ttype = "generative" ∧
      (transformOne cfg d px py s).tprompt = strategyPromptOf cfg ∧
      (transformOne cfg d px py s).tcoords = cfg.targetRect ∧
      (transformOne cfg d px py s).tchildren = none) ∧
    (cfg.effectiveAllowed = false →
      transformOne cfg d px py s = transformOne (stripReplace cfg) d px py s) := by
  constructor
  · intro h
    rw [transformOne_subst_eq cfg d px py s h]
    exact ⟨rfl, rfl, rfl, rfl⟩
  · intro hna
    have h := transformLayers_strip cfg hna (sizeOf [s]) [s] le_rfl d px py
    simpa [transformLayers] using h

/-- C3 witness: the substitution theorem applied to the sample replace
target (generation allowed: generative output covering the target; same
context muted: output identical to the ones with no replace target). -/
theorem c3_witness :
    substCond cfgReplace layerG.lid = true ∧
    (tLayerG.ttype = "generative" ∧
     tLayerG.tprompt = strategyPromptOf cfgReplace ∧
     tLayerG.tcoords = cfgReplace.targetRect ∧
     tLayerG.tchildren = none) ∧
    transformOne { cfgReplace with effectiveAllowed := false } 0 0 0 layerG =
      transformOne (stripReplace { cfgReplace with effectiveAllowed := false }) 0 0 0 layerG := by
  have hsub : substCond cfgReplace layerG.lid = true := by
    simp [substCond, cfgReplace, stratReplace, layerG, SLayer.lid]
  exact ⟨hsub, (c3_generative_substitution cfgReplace 0 0 0 layerG).1 hsub,
    (c3_generative_substitution { cfgReplace with effectiveAllowed := false } 0 0 0 layerG).2 rfl⟩

theorem mergeEntry_layerId (fb : List MOverride) (o : MOverride) :
    (mergeEntry fb o).layerId = o.layerId := by
  unfold mergeEntry
  cases mapGet fb o.layerId <;> rfl

theorem specMergeAI_layerId (fb : List MOverride) (o : MOverride) :
    (specMergeAI fb o).layerId = o.layerId := by
  unfold specMergeAI
  cases fb.find? (fun m => m.layerId == o.layerId) <;> rfl

theorem foldl_lookup_no_match (lid : String) :
    ∀ (fb : List MOverride) (acc : Option MOverride),
      (∀ m ∈ fb, (m.layerId == lid) = false) →
      fb.foldl (fun acc o => if o.layerId == lid then some o else acc) acc = acc := by
  intro fb
  induction fb with
  | nil => intro acc _; rfl
  | cons o rest ih =>
    intro acc h
    have ho := h o (by simp)
    simp only [List.foldl_cons, ho, Bool.false_eq_true, if_false]
    exact ih acc (fun m hm => h m (by simp [hm]))

theorem mapGet_self :
    ∀ (fb : List MOverride), (idsOf fb).Nodup → ∀ e ∈ fb,
      mapGet fb e.layerId = some e ∧
      fb.find? (fun m => m.layerId == e.layerId) = some e := by
  intro fb
  induction fb with
  | nil => intro _ e he; cases he
  | cons o rest ih =>
    intro hnd e he
    have hnd' : (idsOf rest).Nodup := by
      simpa [idsOf] using (List.nodup_cons.mp (by simpa [idsOf] using hnd)).2
    have hnew : o.layerId ∉ idsOf rest :=
      (List.nodup_cons.mp (by simpa [idsOf] using hnd)).1
    rcases List.mem_cons.mp he with rfl | hmem
    · have hrest : ∀ m ∈ rest, (m.layerId == e.layerId) = false := by
        intro m hm
        have : m.layerId ∈ idsOf rest := List.mem_map_of_mem _ hm
        have hne : m.layerId ≠ e.layerId := fun hEq => hnew (hEq ▸ this)
        simpa using hne
      constructor
      · show (e :: rest).foldl _ none = some e
        rw [List.foldl_cons]
        simp only [beq_self_eq_true, if_true]
        exact foldl_lookup_no_match e.layerId rest (some e) hrest
      · simp [List.find?]
    · have hne : (o.layerId == e.layerId) = false := by
        have : e.layerId ∈ idsOf rest := List.mem_map_of_mem _ hmem
        have hne' : o.layerId ≠ e.layerId := fun hEq => hnew (hEq ▸ this)
        simpa using hne'
      obtain ⟨ih1, ih2⟩ := ih hnd' e hmem
      constructor
      · show (o :: rest).foldl _ none = some e
        rw [List.foldl_cons]
        simp only [hne, Bool.false_eq_true, if_false]
        exact ih1
      · rw [List.find?_cons, hne]
        exact ih2

theorem mapGet_none (fb : List MOverride) (lid : String)
    (h : ∀ m ∈ fb, (m.layerId == lid) = false) : mapGet fb lid = none :=
  foldl_lookup_no_match lid fb none h

theorem appendLoop_eq (fb : List MOverride) (hnd : (idsOf fb).Nodup) :
    ∀ acc : List MOverride,
      appendLoop acc fb =
        acc ++ fb.filter (fun m => !(acc.any (fun x => x.layerId == m.layerId))) := by
  induction fb with
  | nil => intro acc; simp [appendLoop]
  | cons m rest ih =>
    intro acc
    have hnd' : (idsOf rest).Nodup := by
      simpa [idsOf] using (List.nodup_cons.mp (by simpa [idsOf] using hnd)).2
    have hnew : m.layerId ∉ idsOf rest :=
      (List.nodup_cons.mp (by simpa [idsOf] using hnd)).1
    show List.foldl _ _ (m :: rest) = _
    rw [List.foldl_cons]
    cases hf : acc.find? (fun x => x.layerId == m.layerId) with
    | some y =>
      have hy : acc.any (fun x => x.layerId == m.layerId) = true :=
        List.any_eq_true.mpr ⟨y, List.mem_of_find?_eq_some hf, by simpa using List.find?_some hf⟩
      simp only [hf]
      have := ih hnd' acc
      rw [show (rest.foldl _ acc : List MOverride) = appendLoop acc rest from rfl, this]
      simp [List.filter_cons, hy]
    | none =>
      have hno : acc.any (fun x => x.layerId == m.layerId) = false := by
        rw [Bool.eq_false_iff]
        intro hany
        obtain ⟨x, hx, hbeq⟩ := List.any_eq_true.mp hany
        exact absurd hf (by simp [List.find?_eq_none]; exact ⟨x, hx, by simpa using hbeq⟩)
      simp only [hf]
      rw [show (rest.foldl _ (acc ++ [m]) : List MOverride) = appendLoop (acc ++ [m]) rest from rfl,
          ih hnd' (acc ++ [m])]
      rw [List.filter_cons]
      simp only [hno, Bool.not_false, if_true]
      rw [List.append_assoc, List.singleton_append]
      congr 2
      apply List.filter_congr
      intro x hx
      have hne : x.layerId ≠ m.layerId := by
        have : x.layerId ∈ idsOf rest := List.mem_map_of_mem _ hx
        exact fun hEq => hnew (hEq ▸ this)
      have hxne2 : (m.layerId == x.layerId) = false := by
        simpa using Ne.symm hne
      rw [List.any_append]
      simp only [List.any_cons, List.any_nil, hxne2, Bool.or_false]

theorem mergeOverrides_eq (ai fb : List MOverride) (hfb : (idsOf fb).Nodup) :
    mergeOverrides ai fb =
      ai.map (mergeEntry fb) ++
        fb.filter (fun m => !(ai.any (fun a => a.layerId == m.layerId))) := by
  unfold mergeOverrides
  rw [appendLoop_eq fb hfb]
  congr 1
  apply List.filter_congr
  intro m _
  congr 1
  rw [List.any_map]
  apply congrArg
  funext a
  simp [Function.comp, mergeEntry_layerId]

theorem mergeEntry_eq_specMergeAI (fb : List MOverride) (hfb : (idsOf fb).Nodup)
    (o : MOverride) : mergeEntry fb o = specMergeAI fb o := by
  by_cases hex : ∃ e ∈ fb, e.layerId = o.layerId
  · obtain ⟨e, he, heq⟩ := hex
    obtain ⟨h1, h2⟩ := mapGet_self fb hfb e he
    rw [heq] at h1 h2
    unfold mergeEntry specMergeAI
    rw [h1, h2]
  · push_neg at hex
    have hall : ∀ m ∈ fb, (m.layerId == o.layerId) = false := by
      intro m hm
      simpa using hex m hm
    unfold mergeEntry specMergeAI
    rw [mapGet_none fb o.layerId hall, List.find?_eq_none.mpr (fun m hm => by simp [hall m hm])]

/-- C4: with layer ids unique within each input list, the merge equals
the spec's description — AI overrides in place with feedback offsets and
scale merged in, feedback-only entries appended in order — and no two
entries of the result share a layer id. -/
theorem c4_override_merge (ai fb : List MOverride)
    (hai : (idsOf ai).Nodup) (hfb : (idsOf fb).Nodup) :
    mergeOverrides ai fb = specMergedC4 ai fb ∧
    (idsOf (mergeOverrides ai fb)).Nodup := by
  have hmain : mergeOverrides ai fb = specMergedC4 ai fb := by
    rw [mergeOverrides_eq ai fb hfb]
    unfold specMergedC4
    congr 1
    exact List.map_congr_left (fun a _ => mergeEntry_eq_specMergeAI fb hfb a)
  refine ⟨hmain, ?_⟩
  rw [hmain]
  unfold specMergedC4 idsOf
  rw [List.map_append]
  apply List.Nodup.append
  · rw [List.map_map]
    have hcomp : (MOverride.layerId ∘ specMergeAI fb) = MOverride.layerId := by
      funext a
      simp [Function.comp, specMergeAI_layerId]
    rw [hcomp]
    exact hai
  · exact List.Nodup.sublist (List.Sublist.map _ (List.filter_sublist fb)) hfb
  · intro x hx1 hx2
    rw [List.map_map] at hx1
    obtain ⟨a, ha, hax⟩ := List.mem_map.mp hx1
    obtain ⟨m, hmf, hmx⟩ := List.mem_map.mp hx2
    obtain ⟨hmb, hpm⟩ := List.mem_filter.mp hmf
    have hax2 : a.layerId = x := by
      simpa [Function.comp, specMergeAI_layerId] using hax
    have hany : ai.any (fun a2 => a2.layerId == m.layerId) = true :=
      List.any_eq_true.mpr ⟨a, ha, by simp [hax2, hmx]⟩
    simp [hany] at hpm

theorem mergeEntry_idem (fb : List MOverride) (o : MOverride) :
    mergeEntry fb (mergeEntry fb o) = mergeEntry fb o := by
  cases o with
  | mk lid xo yo isc role anchor rule =>
    cases h : mapGet fb lid with
    | none => simp [mergeEntry, h]
    | some m =>
      cases hm : m.individualScale with
      | none => simp [mergeEntry, h, hm]
      | some s => simp [mergeEntry, h, hm]

theorem mergeEntry_self (fb : List MOverride) (hfb : (idsOf fb).Nodup)
    (e : MOverride) (he : e ∈ fb) : mergeEntry fb e = e := by
  have h := (mapGet_self fb hfb e he).1
  cases e with
  | mk lid xo yo isc role anchor rule =>
    simp only at h
    cases isc with
    | none => simp [mergeEntry, h]
    | some s => simp [mergeEntry, h]

/-- C8 (amended): the merge is idempotent on its result as long as the
feedback list has no duplicated layer ids:
`merge (merge a b) b = merge a b`. -/
theorem c8_merge_idempotent (a b : List MOverride) (hb : (idsOf b).Nodup) :
    mergeOverrides (mergeOverrides a b) b = mergeOverrides a b := by
  have hchar := mergeOverrides_eq a b hb
  rw [mergeOverrides_eq (mergeOverrides a b) b hb, hchar]
  have hmap : (a.map (mergeEntry b) ++
      b.filter (fun m => !(a.any (fun x => x.layerId == m.layerId)))).map (mergeEntry b) =
      a.map (mergeEntry b) ++
        b.filter (fun m => !(a.any (fun x => x.layerId == m.layerId))) := by
    rw [List.map_append]
    congr 1
    · rw [List.map_map]
      have hcomp : (mergeEntry b ∘ mergeEntry b) = mergeEntry b := by
        funext x
        exact mergeEntry_idem b x
      rw [hcomp]
    · rw [List.map_congr_left
        (fun x hx => mergeEntry_self b hb x (List.mem_of_mem_filter hx))]
      exact List.map_id _
  rw [hmap]
  have hfil : b.filter (fun m =>
      !((a.map (mergeEntry b) ++
          b.filter (fun m2 => !(a.any (fun x => x.layerId == m2.layerId)))).any
        (fun x => x.layerId == m.layerId))) = [] := by
    rw [List.filter_eq_nil_iff]
    intro m hm
    simp only [Bool.not_eq_true', Bool.not_eq_false]
    rw [List.any_append]
    cases hin : a.any (fun x => x.layerId == m.layerId) with
    | true =>
      obtain ⟨x, hx, hbeq⟩ := List.any_eq_true.mp hin
      have h1 : (a.map (mergeEntry b)).any (fun x => x.layerId == m.layerId) = true := by
        refine List.any_eq_true.mpr ⟨mergeEntry b x, List.mem_map_of_mem _ hx, ?_⟩
        simpa [mergeEntry_layerId] using hbeq
      simp [h1]
    | false =>
      have hmF : m ∈ b.filter (fun m2 => !(a.any (fun x => x.layerId == m2.layerId))) :=
        List.mem_filter.mpr ⟨hm, by simp [hin]⟩
      have h2 : (b.filter (fun m2 => !(a.any (fun x => x.layerId == m2.layerId)))).any
          (fun x => x.layerId == m.layerId) = true :=
        List.any_eq_true.mpr ⟨m, hmF, by simp⟩
      simp [h2]
  rw [hfil, List.append_nil]

example : (idsOf fbSample).Nodup := by decide
example : (idsOf aiSample).Nodup := by decide

/-- C8 counterexample: with two feedback entries sharing a layer id the
merge keeps the first (the append loop skips duplicates) but a re-merge
overwrites its offsets with the last one (JS `Map` last-wins), so
`merge (merge a b) b ≠ merge a b` for such feedback lists. -/
theorem c8_counterexample :
    mergeOverrides (mergeOverrides [] [fbDupFirst, fbDupSecond]) [fbDupFirst, fbDupSecond] ≠
      mergeOverrides [] [fbDupFirst, fbDupSecond] := by decide

/-- C8 witness: idempotence applied to the spec's example lists, whose
feedback ids are unique. -/
theorem c8_witness :
    (idsOf fbSample).Nodup ∧
    mergeOverrides (mergeOverrides aiSample fbSample) fbSample =
      mergeOverrides aiSample fbSample :=
  ⟨by decide, c8_merge_idempotent aiSample fbSample (by decide)⟩

/-- C4 witness: the merge characterization applied to the spec's example
lists (one AI override, one matching feedback entry plus one
feedback-only entry). -/
theorem c4_witness :
    (idsOf aiSample).Nodup ∧ (idsOf fbSample).Nodup ∧
    (mergeOverrides aiSample fbSample = specMergedC4 aiSample fbSample ∧
      (idsOf (mergeOverrides aiSample fbSample)).Nodup) :=
  ⟨by decide, by decide, c4_override_merge aiSample fbSample (by decide) (by decide)⟩

/-- C5: `requiresGeneration` is true exactly when both generation gates
(global and per-instance) are on, a truthy generative prompt is present,
and either the strategy is mandatory (explicit intent or a
MANDATORY_GEN_FILL directive) or the current prompt equals the recorded
confirmed prompt; in every other state it is false. -/
theorem c5_requires_generation_iff (f : FlagsIn) :
    (computeFlags f).1 =
      (f.globalAllowed && f.instanceSetting.getD true &&
        jsTruthyS (currentPromptOf f) &&
        (isMandatoryOf f || currentPromptOf f == f.confirmedPrompt)) := by
  unfold computeFlags isConfirmedOf effAllowedOf
  cases hj : jsTruthyS (currentPromptOf f) <;>
    cases hg : f.globalAllowed <;>
      cases hi : f.instanceSetting.getD true <;>
        cases hm : isMandatoryOf f <;>
          cases hc : currentPromptOf f == f.confirmedPrompt <;>
            simp [hj, hg, hi, hm, hc, apply_ite]

/-- C6 (amended): the payload status is `awaiting_confirmation` exactly
when a truthy prompt is present, generation is allowed, the instance is
not confirmed (in particular the strategy is not explicit-intent, which
is auto-confirmed) and the uniform scale exceeds 2.0; in every other
state — including an unconfirmed explicit-intent strategy, which is
treated as mandatory — the status is `success`. -/
theorem c6_amended_status_iff (f : FlagsIn) :
    ((computeFlags f).2 = PStatus.awaiting) ↔
      (jsTruthyS (currentPromptOf f) = true ∧ effAllowedOf f = true ∧
       isConfirmedOf f = false ∧ 2 < scaleOfF f) := by
  unfold computeFlags
  cases hj : jsTruthyS (currentPromptOf f) <;> cases ha : effAllowedOf f
  · simp [hj, ha]
  · simp [hj, ha]
  · simp [hj, ha]
  · cases hcf : isConfirmedOf f
    · have hm : isMandatoryOf f = false := by
        revert hcf
        unfold isConfirmedOf
        cases isMandatoryOf f <;> simp
      have hexp : explicitIntentOf f = false := by
        revert hm
        unfold isMandatoryOf
        cases explicitIntentOf f <;> simp
      cases hs : decide (2 < scaleOfF f)
      · simp [hj, ha, hcf, hexp, hs, of_decide_eq_false hs]
      · simp [hj, ha, hcf, hexp, hs, of_decide_eq_true hs]
    · simp [hj, ha, hcf]

/-- C6 counterexample: an explicit-intent strategy with a prompt,
generation allowed, and no recorded confirmation is auto-confirmed by
the code (explicit intent implies mandatory implies confirmed), so its
status is `success` with `requiresGeneration = true` — not
`awaiting_confirmation` as the claim states. -/
theorem c6_counterexample :
    explicitIntentOf flagsExplicit = true ∧
    jsTruthyS (currentPromptOf flagsExplicit) = true ∧
    effAllowedOf flagsExplicit = true ∧
    flagsExplicit.confirmedPrompt = none ∧
    (computeFlags flagsExplicit).1 = true ∧
    (computeFlags flagsExplicit).2 = PStatus.success ∧
    (computeFlags flagsExplicit).2 ≠ PStatus.awaiting := by decide

/-- C7: toggling the master gate off clears every instance's recorded
confirmation (and preview/progress component state) in one step,
regardless of the per-instance switches; toggling one instance's switch
leaves all confirmations untouched, flips only that instance's effective
gate, and leaves every other instance's setting and effective gate
unchanged. -/
theorem c7_two_level_gate (s : RemapperState) (h : globalAllowedOf s = true) :
    ((toggleMasterStep s).confirmations = fun _ => none) ∧
    ∀ i : Nat,
      (toggleInstanceStep i s).confirmations = s.confirmations ∧
      effectiveAllowedAt (toggleInstanceStep i s) i =
        (globalAllowedOf s && !((s.dataN.instanceSettings i).getD true)) ∧
      ∀ j : Nat, j ≠ i →
        (toggleInstanceStep i s).dataN.instanceSettings j = s.dataN.instanceSettings j ∧
        effectiveAllowedAt (toggleInstanceStep i s) j = effectiveAllowedAt s j := by
  constructor
  · unfold toggleMasterStep applyGlobalEffect toggleMasterData globalAllowedOf at *
    simp [h]
  · intro i
    refine ⟨rfl, ?_, ?_⟩
    · unfold effectiveAllowedAt toggleInstanceStep globalAllowedOf
      simp
    · intro j hj
      unfold toggleInstanceStep effectiveAllowedAt globalAllowedOf
      simp [hj]

/-- C7 witness: the gate theorem applied to a concrete node state with
the master gate on, one instance muted and one confirmation recorded. -/
theorem c7_witness :
    globalAllowedOf stateSample = true ∧
    (((toggleMasterStep stateSample).confirmations = fun _ => none) ∧
     ∀ i : Nat,
       (toggleInstanceStep i stateSample).confirmations = stateSample.confirmations ∧
       effectiveAllowedAt (toggleInstanceStep i stateSample) i =
         (globalAllowedOf stateSample && !((stateSample.dataN.instanceSettings i).getD true)) ∧
       ∀ j : Nat, j ≠ i →
         (toggleInstanceStep i stateSample).dataN.instanceSettings j =
           stateSample.dataN.instanceSettings j ∧
         effectiveAllowedAt (toggleInstanceStep i stateSample) j =
           effectiveAllowedAt stateSample j) :=
  ⟨rfl, c7_two_level_gate stateSample rfl⟩

/-- C10: whenever an instance's feedback overrides differ from the
previously observed ones and the stored payload carries a truthy preview
URL, the invalidation effect replaces the stored payload by one with the
preview URL cleared and both `isConfirmed` and `isTransient` false. -/
theorem c10_feedback_invalidates_preview (count : Nat)
    (newFb oldFb : Nat → Option (List MOverride))
    (payloads : Nat → Option StoredPayload) (i : Nat) (p : StoredPayload)
    (hi : i < count) (hne : newFb i ≠ oldFb i) (hp : payloads i = some p)
    (hurl : jsTruthyS p.previewUrl = true) :
    invalidateStalePreviews count newFb oldFb payloads i =
      some { p with previewUrl := none, isConfirmed := false, isTransient := false } := by
  simp [invalidateStalePreviews, hi, hne, hp, hurl]

/-- C10 witness: the invalidation theorem applied to a concrete registry
state (instance 0 gains a feedback override while its stored payload
carries a preview URL). -/
theorem c10_witness :
    (0 < 1) ∧ newFbSample 0 ≠ oldFbSample 0 ∧ payloadsSample 0 = some payloadSample ∧
    jsTruthyS payloadSample.previewUrl = true ∧
    invalidateStalePreviews 1 newFbSample oldFbSample payloadsSample 0 =
      some { payloadSample with previewUrl := none, isConfirmed := false, isTransient := false } :=
  ⟨by decide, by decide, rfl, by decide,
   c10_feedback_invalidates_preview 1 newFbSample oldFbSample payloadsSample 0 payloadSample
     (by decide) (by decide) rfl (by decide)⟩
